import Mathlib

/-!
Verification of the frame-streaming core of `desktop-listener/main.py`
(class `VideoServer`, plus the stats-display branch of `ViewerApp`).

Modelling conventions:
* bytes are `Nat` values (a socket delivers values in `0..255`; the codec
  theorems hold for the values the wire can carry);
* wall-clock instants (`time.time()`) are rationals `ℚ`, so the windowing
  arithmetic of the source is stated exactly;
* a TCP receive stream is the finite list of bytes the peer sends before
  EOF; `recvall` additionally takes an explicit delivery schedule so that
  partial reads and timeouts are represented;
* Python exceptions that escape a function are an `Except` value; exceptions
  that the source catches and swallows do not appear in the modelled type
  (the model is total exactly where the source cannot raise).
-/

namespace DesktopListener

/-! ## Framing codec

`struct.unpack('>I', header)` / `struct.pack('>I', n)`: a 4-byte unsigned
big-endian length. -/

/-- Decode a 4-byte big-endian unsigned integer (`struct.unpack('>I', b)`).
Only ever applied to buffers of length 4 in the receive loop (`_recvall`
guarantees this); the catch-all branch is unreachable there. -/
def decode_header (b : List Nat) : Nat :=
  match b with
  | b0 :: b1 :: b2 :: b3 :: _ => b0 * 16777216 + b1 * 65536 + b2 * 256 + b3
  | _ => 0

/-- Encode a length as 4 big-endian bytes (`struct.pack('>I', n)`). -/
def encode_header (n : Nat) : List Nat :=
  [n / 16777216 % 256, n / 65536 % 256, n / 256 % 256, n % 256]

/-- The frame-size bound of the receive loop: `5 * 1024 * 1024` bytes. -/
def MAX_FRAME : Nat := 5 * 1024 * 1024

/-! ## Stream statistics (`FrameStats` dataclass) -/

/-- `FrameStats`: fps, latency in milliseconds, and the time of the last
received frame. -/
structure FrameStats where
  fps : ℚ
  latency_ms : ℚ
  last_updated : ℚ
deriving Repr, DecidableEq

/-- The initial `FrameStats()` value: `fps = 0.0`, `latency_ms = 0.0`,
`last_updated` the construction time `t0`. -/
def initStats (t0 : ℚ) : FrameStats :=
  { fps := 0, latency_ms := 0, last_updated := t0 }

/-- The documented invariants on the statistics scalars. -/
def StatsInv (st : FrameStats) : Prop :=
  0 ≤ st.fps ∧ 0 ≤ st.latency_ms

instance (st : FrameStats) : Decidable (StatsInv st) := by
  unfold StatsInv; infer_instance

/-! ## Hand-off queue (`queue.Queue(maxsize=1)`) and `_push_frame` -/

/-- The capacity-1 hand-off queue: at most one `(frame bytes, timestamp)`
pair. -/
abbrev QSlot := Option (List Nat × ℚ)

/-- `VideoServer._push_frame(frame_data, timestamp)`.

Source behaviour: if `frame_queue.full()` then `get_nowait()` (a concurrent
`queue.Empty` is caught and ignored; either way the slot is empty
afterwards); then `put_nowait((frame_data, timestamp))` with `queue.Full`
caught and ignored; finally `stats.last_updated = timestamp` unconditionally.

`putSucceeds` is the outcome of the `put_nowait` call: `false` models the
concurrent-interference case in which the slot was refilled between the
eviction and the insert, so `queue.Full` is raised and swallowed and the new
frame is dropped.  In a sequential (single-producer) run `putSucceeds = true`.
Every exception the primitives can raise is caught by the source, so the
model is a total function (the push never raises and never blocks). -/
def push_frame (putSucceeds : Bool) (q : QSlot) (st : FrameStats)
    (frame_data : List Nat) (timestamp : ℚ) : QSlot × FrameStats :=
  let q1 : QSlot := if q.isSome then none else q
  let q2 : QSlot := if putSucceeds then some (frame_data, timestamp) else q1
  (q2, { st with last_updated := timestamp })

/-! ## `_recvall`: read fully or fail -/

/-- `VideoServer._recvall(sock, n)`.

`stream` is the byte sequence the peer sends before EOF.  `sched` is the
delivery schedule: each `recv` call consumes one entry; `none` means the call
raised `socket.timeout`; `some k` means the kernel delivered
`min k (bytes still requested)` bytes from the stream (`recv(m)` returns
between 1 and `m` bytes, or `b''` at EOF — the empty chunk when the stream
is exhausted, or when `k = 0`).  An exhausted schedule stands for a receive
that never returns data, i.e. a timeout.

The source loops `while len(data) < length`, returns `None` on timeout or
on an empty chunk, and `bytes(data)` once `length` bytes are accumulated. -/
def recvall (n : Nat) (sched : List (Option Nat)) (stream data : List Nat) :
    Option (List Nat) :=
  if data.length < n then
    match sched with
    | [] => none
    | none :: _ => none
    | some k :: rest =>
      let m := min k (n - data.length)
      let chunk := stream.take m
      if chunk.isEmpty then none
      else recvall n rest (stream.drop m) (data ++ chunk)
  else some data

/-! ## Per-connection receive loop (`_handle_client`), one wire unit -/

/-- Outcome of processing one wire unit inside the `while` loop of
`_handle_client`. -/
inductive UnitResult where
  /-- A `break`: header or payload read failed (EOF / timeout). -/
  | exit : UnitResult
  /-- The length was out of bounds; `continue` with the given remaining
  stream. -/
  | skipped (rest : List Nat) : UnitResult
  /-- A payload was received; `rest` is the remaining stream. -/
  | delivered (payload : List Nat) (rest : List Nat) : UnitResult
deriving Repr, DecidableEq

/-- One iteration of the receive loop of `_handle_client`, abstracting
`_recvall` by its all-or-nothing contract over the remaining stream `s`
(it yields the requested bytes exactly when the stream still holds them,
and fails — `break` — otherwise):

* `header = _recvall(sock, 4)`; `if not header: break`;
* `(frame_length,) = struct.unpack('>I', header)`;
* `if frame_length <= 0 or frame_length > 5*1024*1024: continue` —
  note: the declared payload is NOT read; only the 4 header bytes have
  been consumed (`>I` is unsigned, so `<= 0` means `= 0`);
* `frame_data = _recvall(sock, frame_length)`; `if not frame_data: break`.
-/
def recvUnit (s : List Nat) : UnitResult :=
  if s.length < 4 then .exit
  else if decode_header (s.take 4) = 0 ∨ MAX_FRAME < decode_header (s.take 4)
    then .skipped (s.drop 4)
  else if s.length < 4 + decode_header (s.take 4) then .exit
  else .delivered ((s.drop 4).take (decode_header (s.take 4)))
    (s.drop (4 + decode_header (s.take 4)))

/-- The FPS window update at the end of a delivered unit, acting on
`(frame_count, window_start, stats.fps)` at time `now`:

`frame_count += 1; elapsed = now - window_start;
 if elapsed >= 1.0: fps = frame_count / elapsed; frame_count = 0;
 window_start = now`. -/
def fpsWindow (frame_count : ℕ) (window_start now fps : ℚ) : ℕ × ℚ × ℚ :=
  let fc := frame_count + 1
  let elapsed := now - window_start
  if 1 ≤ elapsed then (0, now, (fc : ℚ) / elapsed)
  else (fc, window_start, fps)

/-- The loop-local and shared state of `_handle_client`. -/
structure LoopState where
  q : QSlot
  stats : FrameStats
  frame_count : ℕ
  window_start : ℚ
deriving Repr, DecidableEq

/-- Result of one full loop iteration: the wire outcome, the updated state,
and the list of pushes performed on the hand-off queue during the
iteration. -/
structure StepOut where
  result : UnitResult
  st : LoopState
  pushes : List (List Nat × ℚ)
deriving Repr, DecidableEq

/-- One full iteration of the `_handle_client` loop at time `now`: process
one wire unit; on delivery, `_push_frame(frame_data, now)` once and run the
FPS window update.  On `break` or `continue` nothing else happens. -/
def clientStep (s : List Nat) (ls : LoopState) (now : ℚ) : StepOut :=
  match recvUnit s with
  | .exit => ⟨.exit, ls, []⟩
  | .skipped rest => ⟨.skipped rest, ls, []⟩
  | .delivered payload rest =>
    let pr := push_frame true ls.q ls.stats payload now
    let w := fpsWindow ls.frame_count ls.window_start now pr.2.fps
    ⟨.delivered payload rest,
      ⟨pr.1, { pr.2 with fps := w.2.2 }, w.1, w.2.1⟩,
      [(payload, now)]⟩

/-! ## Control channel (`send_control_command`) -/

/-- The UTF-8 encoding of one unicode scalar value, as the standard (and
Python's `str.encode('utf-8')`) defines it: 1 byte below `0x80`, 2 bytes
below `0x800`, 3 bytes below `0x10000`, 4 bytes above. -/
def utf8EncodeCharNat (c : Char) : List Nat :=
  let v := c.toNat
  if v ≤ 0x7f then [v]
  else if v ≤ 0x7ff then [v / 64 % 32 + 0xc0, v % 64 + 0x80]
  else if v ≤ 0xffff then
    [v / 4096 % 16 + 0xe0, v / 64 % 64 + 0x80, v % 64 + 0x80]
  else
    [v / 262144 % 8 + 0xf0, v / 4096 % 64 + 0x80,
      v / 64 % 64 + 0x80, v % 64 + 0x80]

/-- UTF-8 bytes of a string, as `command.encode('utf-8')` produces them. -/
def utf8 (s : String) : List Nat :=
  s.data.flatMap utf8EncodeCharNat

/-- `VideoServer.send_control_command(command)`: the list of write calls
performed on the producer socket.  With no connected producer
(`_client_output_stream` is `None`) the body is skipped — no write, no
exception.  With a producer, a single
`sendall(command.encode('utf-8') + b'\n')` is issued (its payload is the
sole element of the returned list); a write failure is caught and printed,
so the call never raises. -/
def send_control_command (client_output_stream : Option Unit)
    (command : String) : List (List Nat) :=
  match client_output_stream with
  | none => []
  | some _ => [utf8 command ++ [10]]

/-! ## Stats refresh (`ViewerApp._refresh_stats`) and latency update -/

/-- What one `_refresh_stats` tick writes to the display: the numeric fps
and latency when shown (`none` is the idle indicator `FPS: --` /
`Latency: --ms`), and whether the status line shows `Streaming active`
(`false` is the waiting indicator). -/
structure StatsDisplay where
  fps_shown : Option ℚ
  latency_shown : Option ℚ
  streaming_active : Bool
deriving Repr, DecidableEq

/-- `ViewerApp._refresh_stats` at time `now`:
`elapsed = now - stats.last_updated;
 if elapsed < 2.0 and stats.fps > 0: show fps/latency, streaming active;
 else: idle indicators, waiting status`. -/
def refresh_stats (now : ℚ) (st : FrameStats) : StatsDisplay :=
  if now - st.last_updated < 2 ∧ 0 < st.fps then
    ⟨some st.fps, some st.latency_ms, true⟩
  else ⟨none, none, false⟩

/-- The latency assignment of `ViewerApp._display_frame`:
`stats.latency_ms = max((now - timestamp) * 1000.0, 0.0)`. -/
def display_latency_update (now timestamp : ℚ) (st : FrameStats) :
    FrameStats :=
  { st with latency_ms := max ((now - timestamp) * 1000) 0 }

/-! ## `start` / `_run_server` and bind failure -/

/-- A socket-level error. -/
inductive SockErr where
  | bindError : SockErr
  | otherError : SockErr
deriving Repr, DecidableEq

/-- `VideoServer._run_server`: binds the listening socket first; a bind
failure is an uncaught `OSError` propagating out of the function (and hence
out of the thread it runs on).  The accept loop that follows a successful
bind is elided as `.ok ()` — no claim concerns it. -/
def run_server (bindResult : Except SockErr Unit) : Except SockErr Unit :=
  match bindResult with
  | .error e => .error e
  | .ok _ => .ok ()

/-- What the caller of `start()` observes. -/
structure StartOutcome where
  /-- The error, if any, that `start()` itself raises to its caller. -/
  raisedToCaller : Option SockErr
  /-- Whether a new server thread was spawned. -/
  threadStarted : Bool
deriving Repr, DecidableEq

/-- `VideoServer.start()`: if the server thread is already alive, return at
once; otherwise spawn a daemon thread running `_run_server` and return
`None`.  The first component is what the caller observes; the second is the
terminal outcome of the spawned thread (`none` when no thread was spawned),
which `start()` does not wait for and which never reaches the caller. -/
def start (alreadyRunning : Bool) (bindResult : Except SockErr Unit) :
    StartOutcome × Option (Except SockErr Unit) :=
  if alreadyRunning then (⟨none, false⟩, none)
  else (⟨none, true⟩, some (run_server bindResult))

/-! ## Helper lemmas -/

/-- Decoding inverts encoding for any length below `2^32`. -/
theorem decode_encode (n : Nat) (h : n < 4294967296) :
    decode_header (encode_header n) = n := by
  simp only [decode_header, encode_header]
  omega

/-- A wire unit with an in-bounds header followed by its full payload is
delivered with exactly the payload bytes, leaving exactly the bytes after
the payload. -/
theorem recvUnit_delivered (b0 b1 b2 b3 n : Nat) (payload rest : List Nat)
    (hd : decode_header [b0, b1, b2, b3] = n) (hn0 : n ≠ 0)
    (hmax : n ≤ MAX_FRAME) (hlen : payload.length = n) :
    recvUnit (b0 :: b1 :: b2 :: b3 :: (payload ++ rest)) =
      UnitResult.delivered payload rest := by
  have htake : (b0 :: b1 :: b2 :: b3 :: (payload ++ rest)).take 4 =
      [b0, b1, b2, b3] := rfl
  have hlength : (b0 :: b1 :: b2 :: b3 :: (payload ++ rest)).length =
      payload.length + rest.length + 4 := by
    simp only [List.length_cons, List.length_append]
  have h1 : ((b0 :: b1 :: b2 :: b3 :: (payload ++ rest)).drop 4).take n =
      payload := by
    show (payload ++ rest).take n = payload
    exact List.take_left' hlen
  have h2 : (b0 :: b1 :: b2 :: b3 :: (payload ++ rest)).drop (4 + n) =
      rest := by
    rw [← List.drop_drop]
    show (payload ++ rest).drop n = rest
    exact List.drop_left' hlen
  unfold recvUnit
  rw [htake, hd, hlength]
  rw [if_neg (by omega)]
  rw [if_neg (by push_neg; exact ⟨hn0, hmax⟩)]
  rw [if_neg (by omega)]
  rw [h1, h2]

/-- Unfolding: the requested byte count is already accumulated. -/
theorem recvall_done (n : Nat) (sched : List (Option Nat))
    (stream data : List Nat) (h : ¬ data.length < n) :
    recvall n sched stream data = some data := by
  rw [recvall.eq_def, if_neg h]

/-- Unfolding: more bytes needed but no delivery ever arrives. -/
theorem recvall_starved (n : Nat) (stream data : List Nat)
    (h : data.length < n) :
    recvall n [] stream data = none := by
  rw [recvall.eq_def, if_pos h]

/-- Unfolding: more bytes needed and the pending `recv` raises
`socket.timeout`. -/
theorem recvall_timeout (n : Nat) (rest : List (Option Nat))
    (stream data : List Nat) (h : data.length < n) :
    recvall n (none :: rest) stream data = none := by
  rw [recvall.eq_def, if_pos h]

/-- Unfolding: more bytes needed and the pending `recv` returns a chunk
(possibly empty, meaning EOF). -/
theorem recvall_chunk (n k : Nat) (rest : List (Option Nat))
    (stream data : List Nat) (h : data.length < n) :
    recvall n (some k :: rest) stream data =
      (if (stream.take (min k (n - data.length))).isEmpty then none
       else recvall n rest (stream.drop (min k (n - data.length)))
         (data ++ stream.take (min k (n - data.length)))) := by
  rw [recvall.eq_def, if_pos h]

/-- The fps value produced by the window update is nonnegative whenever the
previous one is: either it is kept, or it is `(frame_count + 1) / elapsed`
with `elapsed ≥ 1`. -/
theorem fpsWindow_nonneg (fc : ℕ) (ws now fps : ℚ) (h : 0 ≤ fps) :
    0 ≤ (fpsWindow fc ws now fps).2.2 := by
  simp only [fpsWindow]
  split
  case isTrue h1 =>
    exact div_nonneg (by positivity) (by linarith)
  case isFalse h1 =>
    exact h

/-! ## Claims -/

/-- C1, counterexample.  The claim says that on an out-of-bounds header the
loop reads and discards exactly the declared `frame_length` bytes, so that
the stream offset is advanced past the rejected payload.  On the stream
whose header declares `6291456` (> 5*1024*1024) followed by 8 more bytes,
the code skips only the 4 header bytes: the remaining stream is those 8
bytes, whereas advancing past the declared payload would leave the empty
remainder. -/
theorem C1_counterexample :
    recvUnit ([0, 96, 0, 0] ++ [1, 2, 3, 4, 5, 6, 7, 8]) =
      UnitResult.skipped [1, 2, 3, 4, 5, 6, 7, 8] ∧
    decode_header (([0, 96, 0, 0] ++ [1, 2, 3, 4, 5, 6, 7, 8]).take 4) =
      6291456 ∧
    MAX_FRAME < 6291456 ∧
    List.drop (4 + 6291456) ([0, 96, 0, 0] ++ [1, 2, 3, 4, 5, 6, 7, 8]) =
      [] ∧
    UnitResult.skipped ([1, 2, 3, 4, 5, 6, 7, 8] : List Nat) ≠
      UnitResult.skipped ([] : List Nat) :=
  ⟨by decide, by decide, by decide, List.drop_eq_nil_of_le (by decide),
    by decide⟩

/-- C1, amended.  When the receive loop decodes a header whose length is
out of bounds (length 0 or length > 5*1024*1024), it skips only the 4
header bytes and immediately reinterprets the following bytes as the next
header: the declared payload is neither read nor discarded, so the stream
offset is NOT advanced past the rejected payload. -/
theorem C1_skip_consumes_header_only (s : List Nat) (h4 : 4 ≤ s.length)
    (hbad : decode_header (s.take 4) = 0 ∨
      MAX_FRAME < decode_header (s.take 4)) :
    recvUnit s = UnitResult.skipped (s.drop 4) := by
  unfold recvUnit
  rw [if_neg (by omega), if_pos hbad]

/-- Witness for `C1_skip_consumes_header_only` at the concrete stream
`[0, 96, 0, 0, 1, 2]` (header declares `6291456`). -/
theorem C1_witness :
    (4 ≤ ([0, 96, 0, 0, 1, 2] : List Nat).length ∧
      (decode_header (([0, 96, 0, 0, 1, 2] : List Nat).take 4) = 0 ∨
        MAX_FRAME < decode_header (([0, 96, 0, 0, 1, 2] : List Nat).take 4))) ∧
    recvUnit [0, 96, 0, 0, 1, 2] =
      UnitResult.skipped (([0, 96, 0, 0, 1, 2] : List Nat).drop 4) :=
  ⟨⟨by decide, by decide⟩,
    C1_skip_consumes_header_only [0, 96, 0, 0, 1, 2] (by decide) (by decide)⟩

/-- C3.  For every queue state and every frame, `_push_frame` (a total
function here because every exception its queue primitives can raise is
caught by the source, and `full`/`get_nowait`/`put_nowait` are the
non-blocking primitives) leaves the capacity-1 slot holding exactly the new
`(frame, timestamp)` pair: if the slot held an undrained frame it was
discarded first, and the slot never holds both. -/
theorem C3_push_never_blocks_drop_oldest (q : QSlot) (st : FrameStats)
    (frame_data : List Nat) (timestamp : ℚ) :
    (push_frame true q st frame_data timestamp).1 =
      some (frame_data, timestamp) := by
  cases q <;> simp [push_frame]

/-- C4, counterexample.  The claim says a bind failure is surfaced to the
caller of `start()`.  Invoking `start` (not already running) with a failing
bind raises nothing to the caller: the error is the terminal outcome of the
spawned daemon thread only. -/
theorem C4_counterexample :
    (start false (Except.error SockErr.bindError)).1.raisedToCaller =
      none ∧
    (start false (Except.error SockErr.bindError)).2 =
      some (Except.error SockErr.bindError) :=
  ⟨rfl, rfl⟩

/-- C4, amended.  A failure to bind the listening socket is NOT surfaced to
the caller of `start()`: `start()` raises nothing to its caller for any
bind outcome; the bind error instead propagates out of `_run_server` on the
spawned daemon thread, silently terminating that thread. -/
theorem C4_bind_failure_not_surfaced (alreadyRunning : Bool)
    (bindResult : Except SockErr Unit) (e : SockErr) :
    (start alreadyRunning bindResult).1.raisedToCaller = none ∧
    (start false (Except.error e)).2 = some (Except.error e) := by
  cases alreadyRunning <;> exact ⟨rfl, rfl⟩

/-- C5.  FPS is computed by discrete windowing: while the elapsed time
since the window start is below 1.0 s the frame counter advances and
`fps` is untouched; once it reaches ≥ 1.0 s, `fps` becomes
`count / elapsed`, the counter resets to 0 and the window start moves to
the current time.  A window of exactly 1.0 second containing exactly 30
frames (counter 29 before the 30th frame) yields `fps = 30`. -/
theorem C5_fps_discrete_windowing (fc : ℕ) (ws now fps : ℚ) :
    (now - ws < 1 → fpsWindow fc ws now fps = (fc + 1, ws, fps)) ∧
    (1 ≤ now - ws →
      fpsWindow fc ws now fps = (0, now, ((fc : ℚ) + 1) / (now - ws))) ∧
    fpsWindow 29 0 1 fps = (0, 1, 30) := by
  refine ⟨fun h => ?_, fun h => ?_, ?_⟩
  · simp only [fpsWindow, if_neg (not_le.mpr h)]
  · simp only [fpsWindow, if_pos h]
    norm_num
  · norm_num [fpsWindow]

/-- Witness for `C5_fps_discrete_windowing`: the 30-frames-in-1-second
window yields fps 30. -/
theorem C5_witness : fpsWindow 29 0 1 0 = (0, 1, 30) :=
  (C5_fps_discrete_windowing 29 0 1 0).2.2

/-- C6.  `send_control_command` with no connected producer performs no
write and raises nothing (a silent no-op); with a connected producer it
performs exactly one write whose bytes are the UTF-8 encoding of the
command followed by a single newline; for `"ZOOM:2.50"` those bytes are
`Z O O M : 2 . 5 0` then `0x0A`. -/
theorem C6_control_command_bytes (command : String) :
    send_control_command none command = [] ∧
    (∀ sock : Unit,
      send_control_command (some sock) command = [utf8 command ++ [10]]) ∧
    send_control_command (some ()) "ZOOM:2.50" =
      [[90, 79, 79, 77, 58, 50, 46, 53, 48, 10]] :=
  ⟨rfl, fun _ => rfl, by decide⟩

/-- C8.  Whenever the elapsed time since `stats.last_updated` is at least
2 seconds at a `_refresh_stats` tick, the displayed status reverts to the
waiting indicator (streaming active is false) and the fps display resets
to the idle indicator rather than a numeric rate. -/
theorem C8_stale_stream_resets_display (now : ℚ) (st : FrameStats)
    (h : 2 ≤ now - st.last_updated) :
    refresh_stats now st =
      { fps_shown := none, latency_shown := none,
        streaming_active := false } := by
  have hc : ¬ (now - st.last_updated < 2 ∧ 0 < st.fps) := by
    rintro ⟨h1, -⟩
    exact absurd h (not_le.mpr h1)
  unfold refresh_stats
  rw [if_neg hc]

/-- Witness for `C8_stale_stream_resets_display` at `now = 5` against the
initial stats (last frame at time 0). -/
theorem C8_witness :
    (2 : ℚ) ≤ 5 - (initStats 0).last_updated ∧
    refresh_stats 5 (initStats 0) =
      { fps_shown := none, latency_shown := none,
        streaming_active := false } :=
  ⟨by norm_num [initStats],
    C8_stale_stream_resets_display 5 (initStats 0) (by norm_num [initStats])⟩

/-- C10.  `_push_frame` sets `stats.last_updated` to the frame timestamp
unconditionally — also when the insert fails (`putSucceeds = false`, the
concurrently-refilled-slot case, in which the new frame is dropped) — and
modifies no other statistics field. -/
theorem C10_last_updated_unconditional (putSucceeds : Bool) (q : QSlot)
    (st : FrameStats) (frame_data : List Nat) (timestamp : ℚ) :
    (push_frame putSucceeds q st frame_data timestamp).2.last_updated =
      timestamp ∧
    (push_frame putSucceeds q st frame_data timestamp).2.fps = st.fps ∧
    (push_frame putSucceeds q st frame_data timestamp).2.latency_ms =
      st.latency_ms ∧
    (putSucceeds = false →
      (push_frame putSucceeds q st frame_data timestamp).1 = none) := by
  refine ⟨rfl, rfl, rfl, ?_⟩
  rintro rfl
  cases q <;> simp [push_frame]

/-- Soundness of `recvall`: whenever it returns a buffer, that buffer is
the already-accumulated data followed by exactly the missing count of the
next stream bytes, its total length is exactly `n`, and the stream held
enough bytes. -/
theorem recvall_spec (n : Nat) (sched : List (Option Nat)) :
    ∀ (stream data l : List Nat), data.length ≤ n →
      recvall n sched stream data = some l →
      l = data ++ stream.take (n - data.length) ∧ l.length = n ∧
        n - data.length ≤ stream.length := by
  induction sched with
  | nil =>
    intro stream data l hle h
    by_cases hlt : data.length < n
    · rw [recvall_starved n stream data hlt] at h
      exact absurd h (by simp)
    · rw [recvall_done n [] stream data hlt] at h
      have hdl : data.length = n := le_antisymm hle (not_lt.mp hlt)
      obtain rfl : data = l := Option.some.inj h
      refine ⟨by simp [hdl], hdl, by omega⟩
  | cons e rest ih =>
    intro stream data l hle h
    by_cases hlt : data.length < n
    · cases e with
      | none =>
        rw [recvall_timeout n rest stream data hlt] at h
        exact absurd h (by simp)
      | some k =>
        rw [recvall_chunk n k rest stream data hlt] at h
        set m := min k (n - data.length) with hm
        by_cases hemp : (stream.take m).isEmpty
        · rw [if_pos hemp] at h
          exact absurd h (by simp)
        · rw [if_neg hemp] at h
          have hcl : (stream.take m).length = min m stream.length :=
            List.length_take m stream
          have hdata : (data ++ stream.take m).length ≤ n := by
            rw [List.length_append, hcl]
            omega
          obtain ⟨h1, h2, h3⟩ := ih (stream.drop m) (data ++ stream.take m)
            l hdata h
          rw [List.length_append, hcl, List.length_drop] at h3
          have hms : m ≤ stream.length := by omega
          have hclm : (stream.take m).length = m := by
            rw [hcl]
            omega
          refine ⟨?_, h2, by omega⟩
          rw [h1, List.append_assoc, List.length_append, hclm]
          congr 1
          rw [← List.take_add]
          congr 1
          omega
    · rw [recvall_done n (e :: rest) stream data hlt] at h
      have hdl : data.length = n := le_antisymm hle (not_lt.mp hlt)
      obtain rfl : data = l := Option.some.inj h
      refine ⟨by simp [hdl], hdl, by omega⟩

/-- C7.  `_recvall` is all-or-nothing: for every requested length `n ≥ 1`,
every delivery schedule and every incoming byte stream, it either fails
(`None`, on EOF or timeout before `n` bytes arrive) or returns exactly the
next `n` bytes of the stream in order; it never returns a shorter
prefix. -/
theorem C7_recvall_all_or_nothing (n : Nat) (sched : List (Option Nat))
    (stream : List Nat) (hn : 1 ≤ n) :
    recvall n sched stream [] = none ∨
      (recvall n sched stream [] = some (stream.take n) ∧
        n ≤ stream.length ∧ (stream.take n).length = n) := by
  cases hr : recvall n sched stream [] with
  | none => exact Or.inl rfl
  | some l =>
    obtain ⟨h1, h2, h3⟩ := recvall_spec n sched stream [] l (by simp) hr
    simp only [List.nil_append, List.length_nil, Nat.sub_zero] at h1 h3
    subst h1
    exact Or.inr ⟨rfl, h3, h2⟩

/-- Witness for `C7_recvall_all_or_nothing`: requesting 2 bytes of the
stream `[10, 20, 30]` under a schedule delivering 1 byte then up to 5
bytes. -/
theorem C7_witness :
    1 ≤ 2 ∧
    (recvall 2 [some 1, some 5] [10, 20, 30] [] = none ∨
      (recvall 2 [some 1, some 5] [10, 20, 30] [] =
          some (([10, 20, 30] : List Nat).take 2) ∧
        2 ≤ ([10, 20, 30] : List Nat).length ∧
        (([10, 20, 30] : List Nat).take 2).length = 2)) :=
  ⟨by decide, C7_recvall_all_or_nothing 2 [some 1, some 5] [10, 20, 30]
    (by decide)⟩

/-- C2.  For every valid frame length `1 ≤ n ≤ 5*1024*1024`, when a correct
4-byte big-endian header declaring `n` is followed by exactly `n` payload
bytes (then anything), the loop iteration pushes that payload byte-for-byte
unchanged into the hand-off queue exactly once (the iteration's push list
is exactly one entry carrying the payload), and the queue slot afterwards
holds it. -/
theorem C2_frame_delivered_once (n : ℕ) (payload rest : List Nat)
    (ls : LoopState) (now : ℚ) (h1 : 1 ≤ n) (h2 : n ≤ MAX_FRAME)
    (hlen : payload.length = n) :
    (clientStep (encode_header n ++ (payload ++ rest)) ls now).pushes =
      [(payload, now)] ∧
    (clientStep (encode_header n ++ (payload ++ rest)) ls now).result =
      UnitResult.delivered payload rest ∧
    (clientStep (encode_header n ++ (payload ++ rest)) ls now).st.q =
      some (payload, now) := by
  have h32 : n < 4294967296 := by
    have : MAX_FRAME < 4294967296 := by norm_num [MAX_FRAME]
    omega
  have hd : decode_header (encode_header n) = n := decode_encode n h32
  have hr : recvUnit (encode_header n ++ (payload ++ rest)) =
      UnitResult.delivered payload rest := by
    have := recvUnit_delivered (n / 16777216 % 256) (n / 65536 % 256)
      (n / 256 % 256) (n % 256) n payload rest hd (by omega) h2 hlen
    simpa [encode_header] using this
  refine ⟨?_, ?_, ?_⟩ <;> simp [clientStep, hr, push_frame]

/-- Witness for `C2_frame_delivered_once`: a frame of length 1 with payload
byte `7`, starting from an empty queue and fresh stats. -/
theorem C2_witness :
    (1 ≤ 1 ∧ 1 ≤ MAX_FRAME ∧ ([7] : List Nat).length = 1) ∧
    ((clientStep (encode_header 1 ++ ([7] ++ []))
        ⟨none, initStats 0, 0, 0⟩ 0).pushes = [([7], 0)] ∧
      (clientStep (encode_header 1 ++ ([7] ++ []))
        ⟨none, initStats 0, 0, 0⟩ 0).result =
          UnitResult.delivered [7] [] ∧
      (clientStep (encode_header 1 ++ ([7] ++ []))
        ⟨none, initStats 0, 0, 0⟩ 0).st.q = some ([7], 0)) :=
  ⟨⟨le_refl 1, by norm_num [MAX_FRAME], rfl⟩,
    C2_frame_delivered_once 1 [7] [] ⟨none, initStats 0, 0, 0⟩ 0
      (le_refl 1) (by norm_num [MAX_FRAME]) rfl⟩

/-- C9.  The statistics invariants `fps ≥ 0` and `latency_ms ≥ 0` hold for
the initial stats and are preserved by every operation that mutates the
stats: the push (`_push_frame`), the receive-loop iteration (whose fps
assignment is `frame_count / elapsed` with `frame_count ≥ 0` and
`elapsed ≥ 1`), and the display-path latency assignment (a clamp to at
least 0). -/
theorem C9_stats_nonneg_invariants (t0 now ts : ℚ) (putSucceeds : Bool)
    (q : QSlot) (f s : List Nat) (ls : LoopState)
    (h : StatsInv ls.stats) :
    StatsInv (initStats t0) ∧
    StatsInv (push_frame putSucceeds q ls.stats f ts).2 ∧
    StatsInv (display_latency_update now ts ls.stats) ∧
    StatsInv (clientStep s ls now).st.stats := by
  obtain ⟨hf, hl⟩ := h
  refine ⟨⟨le_refl 0, le_refl 0⟩, ⟨hf, hl⟩, ⟨hf, le_max_right _ _⟩, ?_⟩
  cases hr : recvUnit s with
  | exit => simpa [clientStep, hr] using And.intro hf hl
  | skipped rest => simpa [clientStep, hr] using And.intro hf hl
  | delivered payload rest =>
    simp only [clientStep, hr]
    exact ⟨fpsWindow_nonneg ls.frame_count ls.window_start now
      ls.stats.fps hf, hl⟩

/-- Witness for `C9_stats_nonneg_invariants` at fresh stats and a concrete
one-frame stream. -/
theorem C9_witness :
    StatsInv (⟨none, initStats 0, 0, 0⟩ : LoopState).stats ∧
    (StatsInv (initStats 1) ∧
      StatsInv (push_frame true none
        (⟨none, initStats 0, 0, 0⟩ : LoopState).stats [7] 2).2 ∧
      StatsInv (display_latency_update 3 2
        (⟨none, initStats 0, 0, 0⟩ : LoopState).stats) ∧
      StatsInv (clientStep [0, 0, 0, 1, 7]
        ⟨none, initStats 0, 0, 0⟩ 3).st.stats) :=
  ⟨⟨le_refl 0, le_refl 0⟩,
    C9_stats_nonneg_invariants 1 3 2 true none [7] [0, 0, 0, 1, 7]
      ⟨none, initStats 0, 0, 0⟩ ⟨le_refl 0, le_refl 0⟩⟩

end DesktopListener
